import Mathlib

/-!
Shallow embedding of `src/ficc/fixed_income/bonds.py` (bond pricing and
risk analytics).  Python floats are modelled as exact rationals, Python
`round(x, d)` as round-half-to-even at `d` decimal places, `int(x)` (only
reached for positive `x` here) as the floor, and raised exceptions
(`ValueError` for argument validation, `ZeroDivisionError` for float
division by zero) as `Except.error` values.
-/

/-- Errors raised by the analytics module: `ValueError` carries its message,
`ZeroDivisionError` is what Python raises when a float division has a zero
divisor. -/
inductive FiccError where
  | invalidArg : String → FiccError
  | zeroDivision : FiccError
  deriving DecidableEq

/-- Result dictionary of `price_bond`. -/
structure PriceBondResult where
  price : ℚ
  dirty_price : ℚ
  discount_premium : ℚ
  par_yield_diff : ℚ
  deriving DecidableEq

/-- Result dictionary of `calculate_duration`. -/
structure DurationResult where
  macaulay_duration : ℚ
  modified_duration : ℚ
  approx_price_change_1bp : ℚ
  deriving DecidableEq

/-- Result dictionary of `calculate_convexity`. -/
structure ConvexityResult where
  convexity : ℚ
  convexity_adjustment_1bp : ℚ
  deriving DecidableEq

/-- Result dictionary of `calculate_dv01`. -/
structure Dv01Result where
  dv01 : ℚ
  dv01_per_100 : ℚ
  deriving DecidableEq

/-- Result dictionary of `bond_analytics` (merge of the four sub-results). -/
structure AnalyticsResult where
  price : ℚ
  dirty_price : ℚ
  discount_premium : ℚ
  par_yield_diff : ℚ
  macaulay_duration : ℚ
  modified_duration : ℚ
  approx_price_change_1bp : ℚ
  convexity : ℚ
  convexity_adjustment_1bp : ℚ
  dv01 : ℚ
  dv01_per_100 : ℚ
  deriving DecidableEq

/-- Result dictionary of `price_change_estimate`. -/
structure PriceChangeResult where
  current_price : ℚ
  estimated_new_price : ℚ
  actual_new_price : ℚ
  estimation_error : ℚ
  duration_effect : ℚ
  convexity_effect : ℚ
  deriving DecidableEq

/-- Round a rational to the nearest integer, ties to even (the rounding mode
of Python `round`). -/
def rnd_half_even (q : ℚ) : ℤ :=
  if q - (⌊q⌋ : ℚ) < 1/2 then ⌊q⌋
  else if 1/2 < q - (⌊q⌋ : ℚ) then ⌊q⌋ + 1
  else if ⌊q⌋ % 2 = 0 then ⌊q⌋ else ⌊q⌋ + 1

/-- Python `round(q, d)`: round to `d` decimal places, ties to even. -/
def py_round (q : ℚ) (d : ℕ) : ℚ :=
  (rnd_half_even (q * 10 ^ d) : ℚ) / 10 ^ d

/-- Validation predicate of the Pricer: the disjunction of the three
invalid-argument triggers checked at the top of `price_bond`. -/
def badArgs (fv c y t : ℚ) (f : ℤ) : Prop :=
  fv ≤ 0 ∨ t ≤ 0 ∨ c < 0 ∨ y < 0 ∨ ¬ (f = 1 ∨ f = 2 ∨ f = 4 ∨ f = 12)

instance (fv c y t : ℚ) (f : ℤ) : Decidable (badArgs fv c y t f) := by
  unfold badArgs; exact inferInstance

/-- Derived quantity `n_periods = int(years_to_maturity * coupon_frequency)`
(truncation equals floor for the positive products reached after
validation). -/
def n_periods (t : ℚ) (f : ℤ) : ℕ :=
  (⌊t * (f : ℚ)⌋).toNat

/-- Derived quantity `coupon_payment = face_value * coupon_rate / coupon_frequency`. -/
def coupon_payment (fv c : ℚ) (f : ℤ) : ℚ :=
  fv * c / (f : ℚ)

/-- Derived quantity `periodic_yield = yield_to_maturity / coupon_frequency`. -/
def periodic_yield (y : ℚ) (f : ℤ) : ℚ :=
  y / (f : ℚ)

/-- Unrounded price of `price_bond`: the three-branch discounted-cash-flow
computation (zero coupon, zero periodic yield, general annuity). -/
def raw_price (fv c y t : ℚ) (f : ℤ) : ℚ :=
  let n := n_periods t f
  let coupon_pay := coupon_payment fv c f
  let py := periodic_yield y f
  if c = 0 then
    fv / (1 + py) ^ n
  else if py = 0 then
    coupon_pay * (n : ℚ) + fv
  else
    coupon_pay * (1 - (1 + py) ^ (-(n : ℤ))) / py + fv / (1 + py) ^ n

/-- Rounded price returned by `price_bond` (2 decimal places). -/
def base_price (fv c y t : ℚ) (f : ℤ) : ℚ :=
  py_round (raw_price fv c y t f) 2

/-- Result record built by `price_bond` on the valid path. -/
def priceResult (fv c y t : ℚ) (f : ℤ) : PriceBondResult :=
  { price := base_price fv c y t f
    dirty_price := base_price fv c y t f
    discount_premium := py_round (raw_price fv c y t f - fv) 2
    par_yield_diff := py_round ((c - y) * 10000) 0 }

/-- Embedding of `price_bond`: validation first, then the three-branch DCF
price and the result dictionary. -/
def price_bond (fv c y t : ℚ) (f : ℤ) : Except FiccError PriceBondResult :=
  if fv ≤ 0 ∨ t ≤ 0 then
    .error (.invalidArg "Face value and maturity must be positive")
  else if c < 0 ∨ y < 0 then
    .error (.invalidArg "Rates cannot be negative")
  else if ¬ (f = 1 ∨ f = 2 ∨ f = 4 ∨ f = 12) then
    .error (.invalidArg "Frequency must be 1, 2, 4, or 12")
  else
    .ok (priceResult fv c y t f)

/-- Cash flow of period `period` (1-based): the coupon payment, plus the face
value on the final period. -/
def cash_flow (fv coupon_pay : ℚ) (n period : ℕ) : ℚ :=
  coupon_pay + if period = n then fv else 0

/-- Present value of the period-`period` cash flow at the periodic yield. -/
def pv_cf (fv coupon_pay py : ℚ) (n period : ℕ) : ℚ :=
  cash_flow fv coupon_pay n period / (1 + py) ^ period

/-- Loop of `calculate_duration`: sum over periods of
`(pv_cf / bond_price) * time_years`. -/
def weighted_cf_time (fv c y t : ℚ) (f : ℤ) (bond_price : ℚ) : ℚ :=
  let n := n_periods t f
  let coupon_pay := coupon_payment fv c f
  let py := periodic_yield y f
  ∑ p ∈ Finset.range n,
    pv_cf fv coupon_pay py n (p + 1) / bond_price * (((p + 1 : ℕ) : ℚ) / (f : ℚ))

/-- Sum of the present values of all cash flows (the discounted-cash-flow
price before rounding, expressed as the schedule sum). -/
def pv_total (fv c y t : ℚ) (f : ℤ) : ℚ :=
  let n := n_periods t f
  let coupon_pay := coupon_payment fv c f
  let py := periodic_yield y f
  ∑ p ∈ Finset.range n, pv_cf fv coupon_pay py n (p + 1)

/-- Result record built by `calculate_duration` on the non-degenerate path. -/
def durationResult (fv c y t : ℚ) (f : ℤ) : DurationResult :=
  let B := base_price fv c y t f
  let macaulay := weighted_cf_time fv c y t f B
  let modified := macaulay / (1 + periodic_yield y f)
  { macaulay_duration := py_round macaulay 4
    modified_duration := py_round modified 4
    approx_price_change_1bp := py_round (-modified * B * (1/10000)) 4 }

/-- Embedding of `calculate_duration`.  The loop divides each present value
by `bond_price`; when `bond_price = 0` and the loop body runs (at least one
period) Python raises `ZeroDivisionError`. -/
def calculate_duration (fv c y t : ℚ) (f : ℤ) : Except FiccError DurationResult :=
  match price_bond fv c y t f with
  | .error e => .error e
  | .ok pb =>
    if pb.price = 0 ∧ 1 ≤ n_periods t f then .error .zeroDivision
    else .ok (durationResult fv c y t f)

/-- Loop of `calculate_convexity`: sum over periods of
`period * (period + 1) * pv_cf`. -/
def convexity_sum (fv c y t : ℚ) (f : ℤ) : ℚ :=
  let n := n_periods t f
  let coupon_pay := coupon_payment fv c f
  let py := periodic_yield y f
  ∑ p ∈ Finset.range n,
    ((p + 1 : ℕ) : ℚ) * ((p + 2 : ℕ) : ℚ) * pv_cf fv coupon_pay py n (p + 1)

/-- Unrounded convexity: the loop sum divided by
`bond_price * (1 + periodic_yield)^2`, then by `coupon_frequency^2`. -/
def convexity_raw (fv c y t : ℚ) (f : ℤ) (bond_price : ℚ) : ℚ :=
  convexity_sum fv c y t f / (bond_price * (1 + periodic_yield y f) ^ 2) / ((f : ℚ) ^ 2)

/-- Result record built by `calculate_convexity` on the non-degenerate path. -/
def convexityResult (fv c y t : ℚ) (f : ℤ) : ConvexityResult :=
  let B := base_price fv c y t f
  let conv := convexity_raw fv c y t f B
  { convexity := py_round conv 4
    convexity_adjustment_1bp := py_round (1/2 * conv * (1/10000) ^ 2 * B) 6 }

/-- Embedding of `calculate_convexity`.  The final division has divisor
`bond_price * (1 + periodic_yield)^2`, which is zero exactly when
`bond_price = 0` (the periodic yield is nonnegative on the validated path),
and Python then raises `ZeroDivisionError`. -/
def calculate_convexity (fv c y t : ℚ) (f : ℤ) : Except FiccError ConvexityResult :=
  match price_bond fv c y t f with
  | .error e => .error e
  | .ok pb =>
    if pb.price = 0 then .error .zeroDivision
    else .ok (convexityResult fv c y t f)

/-- Result record built by `calculate_dv01`. -/
def dv01Result (fv c y t : ℚ) (f : ℤ) : Dv01Result :=
  let price_base := base_price fv c y t f
  let price_up := base_price fv c (y + 1/10000) t f
  let dv01 := |price_base - price_up|
  { dv01 := py_round dv01 4
    dv01_per_100 := py_round (dv01 / fv * 100) 4 }

/-- Embedding of `calculate_dv01`: two Pricer calls, one at the input yield
and one at the yield bumped by one basis point. -/
def calculate_dv01 (fv c y t : ℚ) (f : ℤ) : Except FiccError Dv01Result :=
  match price_bond fv c y t f with
  | .error e => .error e
  | .ok _ =>
    match price_bond fv c (y + 1/10000) t f with
    | .error e => .error e
    | .ok _ => .ok (dv01Result fv c y t f)

/-- Merged record built by `bond_analytics` on the fully successful path. -/
def analyticsResult (fv c y t : ℚ) (f : ℤ) : AnalyticsResult :=
  let pm := priceResult fv c y t f
  let dm := durationResult fv c y t f
  let cm := convexityResult fv c y t f
  let vm := dv01Result fv c y t f
  { price := pm.price
    dirty_price := pm.dirty_price
    discount_premium := pm.discount_premium
    par_yield_diff := pm.par_yield_diff
    macaulay_duration := dm.macaulay_duration
    modified_duration := dm.modified_duration
    approx_price_change_1bp := dm.approx_price_change_1bp
    convexity := cm.convexity
    convexity_adjustment_1bp := cm.convexity_adjustment_1bp
    dv01 := vm.dv01
    dv01_per_100 := vm.dv01_per_100 }

/-- Embedding of `bond_analytics`: runs the four components in source order
and merges their result dictionaries (all keys distinct). -/
def bond_analytics (fv c y t : ℚ) (f : ℤ) : Except FiccError AnalyticsResult :=
  match price_bond fv c y t f with
  | .error e => .error e
  | .ok _ =>
    match calculate_duration fv c y t f with
    | .error e => .error e
    | .ok _ =>
      match calculate_convexity fv c y t f with
      | .error e => .error e
      | .ok _ =>
        match calculate_dv01 fv c y t f with
        | .error e => .error e
        | .ok _ => .ok (analyticsResult fv c y t f)

/-- First-order effect of `price_change_estimate`:
`-modified_duration * current_price * yield_change`, with the (rounded)
modified duration and current price taken from the analytics record. -/
def scenario_duration_effect (fv c y t dy : ℚ) (f : ℤ) : ℚ :=
  -(durationResult fv c y t f).modified_duration * base_price fv c y t f * dy

/-- Second-order effect of `price_change_estimate`:
`0.5 * convexity * current_price * yield_change^2` when the flag is set,
else `0`. -/
def scenario_convexity_effect (fv c y t dy : ℚ) (f : ℤ) (ic : Bool) : ℚ :=
  if ic then 1/2 * (convexityResult fv c y t f).convexity * base_price fv c y t f * dy ^ 2
  else 0

/-- Embedding of `price_change_estimate`: Taylor estimate from the merged
analytics, then exact repricing at the shifted yield. -/
def price_change_estimate (fv c y t dy : ℚ) (f : ℤ) (ic : Bool) :
    Except FiccError PriceChangeResult :=
  match bond_analytics fv c y t f with
  | .error e => .error e
  | .ok analytics =>
    let current_price := analytics.price
    let modified_duration := analytics.modified_duration
    let convexity := analytics.convexity
    let duration_effect := -modified_duration * current_price * dy
    let convexity_effect :=
      if ic then 1/2 * convexity * current_price * dy ^ 2 else 0
    let estimated_new_price := current_price + duration_effect + convexity_effect
    match price_bond fv c (y + dy) t f with
    | .error e => .error e
    | .ok actual =>
      .ok { current_price := py_round current_price 2
            estimated_new_price := py_round estimated_new_price 2
            actual_new_price := py_round actual.price 2
            estimation_error := py_round (estimated_new_price - actual.price) 4
            duration_effect := py_round duration_effect 2
            convexity_effect := py_round convexity_effect 4 }

instance {ε α : Type} [DecidableEq ε] [DecidableEq α] : DecidableEq (Except ε α) :=
  fun x y =>
    match x, y with
    | .error a, .error b =>
      match decEq a b with
      | .isTrue h => .isTrue (h ▸ rfl)
      | .isFalse h => .isFalse (fun hc => h (Except.error.inj hc))
    | .error _, .ok _ => .isFalse (fun hc => Except.noConfusion hc)
    | .ok _, .error _ => .isFalse (fun hc => Except.noConfusion hc)
    | .ok a, .ok b =>
      match decEq a b with
      | .isTrue h => .isTrue (h ▸ rfl)
      | .isFalse h => .isFalse (fun hc => h (Except.ok.inj hc))

/-- Holds when an operation raised the invalid-argument (`ValueError`)
error, as opposed to succeeding or raising `ZeroDivisionError`. -/
def raisesInvalidArg {α : Type} (r : Except FiccError α) : Prop :=
  ∃ m, r = .error (.invalidArg m)

/-- Result record built by `price_change_estimate` on the fully successful
path, expressed through the component results. -/
def pceResult (fv c y t dy : ℚ) (f : ℤ) (ic : Bool) : PriceChangeResult :=
  let B := base_price fv c y t f
  let de := scenario_duration_effect fv c y t dy f
  let ce := scenario_convexity_effect fv c y t dy f ic
  let est := B + de + ce
  let act := base_price fv c (y + dy) t f
  { current_price := py_round B 2
    estimated_new_price := py_round est 2
    actual_new_price := py_round act 2
    estimation_error := py_round (est - act) 4
    duration_effect := py_round de 2
    convexity_effect := py_round ce 4 }

set_option allowUnsafeReducibility true

attribute [local semireducible] Rat.mul Rat.inv Rat.div Rat.add Rat.sub Rat.neg
  Rat.blt Rat.floor Rat.ceil

/-! ## Helper lemmas about the rounding primitive -/

theorem rnd_half_even_le (q : ℚ) : (rnd_half_even q : ℚ) ≤ q + 1/2 := by
  have hfl : (⌊q⌋ : ℚ) ≤ q := Int.floor_le q
  unfold rnd_half_even
  split_ifs with h1 h2 h3 <;> push_cast <;> linarith

theorem rnd_half_even_ge (q : ℚ) : q - 1/2 ≤ (rnd_half_even q : ℚ) := by
  have hfl : q < (⌊q⌋ : ℚ) + 1 := Int.lt_floor_add_one q
  unfold rnd_half_even
  split_ifs with h1 h2 h3 <;> push_cast <;> linarith

theorem rnd_half_even_nonneg (q : ℚ) (h : 0 ≤ q) : 0 ≤ rnd_half_even q := by
  have hfl : 0 ≤ ⌊q⌋ := Int.floor_nonneg.mpr h
  unfold rnd_half_even
  split_ifs with h1 h2 h3 <;> omega

theorem py_round_nonneg (q : ℚ) (d : ℕ) (h : 0 ≤ q) : 0 ≤ py_round q d := by
  unfold py_round
  have h10 : (0:ℚ) < 10 ^ d := by positivity
  have hr : 0 ≤ rnd_half_even (q * 10 ^ d) :=
    rnd_half_even_nonneg _ (by positivity)
  have : (0:ℚ) ≤ (rnd_half_even (q * 10 ^ d) : ℚ) := by exact_mod_cast hr
  positivity

theorem py_round_le (q : ℚ) (d : ℕ) : py_round q d ≤ q + 1 / (2 * 10 ^ d) := by
  unfold py_round
  have h10 : (0:ℚ) < 10 ^ d := by positivity
  rw [div_le_iff₀ h10]
  have := rnd_half_even_le (q * 10 ^ d)
  calc (rnd_half_even (q * 10 ^ d) : ℚ) ≤ q * 10 ^ d + 1/2 := this
    _ = (q + 1 / (2 * 10 ^ d)) * 10 ^ d := by field_simp; ring

theorem py_round_ge (q : ℚ) (d : ℕ) : q - 1 / (2 * 10 ^ d) ≤ py_round q d := by
  unfold py_round
  have h10 : (0:ℚ) < 10 ^ d := by positivity
  rw [le_div_iff₀ h10]
  have := rnd_half_even_ge (q * 10 ^ d)
  calc (q - 1 / (2 * 10 ^ d)) * 10 ^ d = q * 10 ^ d - 1/2 := by field_simp; ring
    _ ≤ (rnd_half_even (q * 10 ^ d) : ℚ) := this

theorem py_round_mul_den (q : ℚ) (d : ℕ) : (py_round q d * 10 ^ d).den = 1 := by
  unfold py_round
  have h10 : (10:ℚ) ^ d ≠ 0 := by positivity
  rw [div_mul_cancel₀ _ h10]
  exact Rat.intCast_den _

/-! ## Helper lemmas about validation and the operations' shapes -/

theorem valid_fields {fv c y t : ℚ} {f : ℤ} (h : ¬ badArgs fv c y t f) :
    0 < fv ∧ 0 < t ∧ 0 ≤ c ∧ 0 ≤ y ∧ (f = 1 ∨ f = 2 ∨ f = 4 ∨ f = 12) := by
  unfold badArgs at h
  push_neg at h
  exact h

theorem freq_cast_pos {f : ℤ} (hf : f = 1 ∨ f = 2 ∨ f = 4 ∨ f = 12) :
    (0:ℚ) < (f : ℚ) := by
  rcases hf with h | h | h | h <;> subst h <;> norm_num

theorem price_bond_ok {fv c y t : ℚ} {f : ℤ} (h : ¬ badArgs fv c y t f) :
    price_bond fv c y t f = .ok (priceResult fv c y t f) := by
  obtain ⟨h1, h2, h3, h4, h5⟩ := valid_fields h
  unfold price_bond
  rw [if_neg (by push_neg; exact ⟨h1, h2⟩),
    if_neg (by push_neg; exact ⟨h3, h4⟩),
    if_neg (not_not_intro h5)]

theorem price_bond_err {fv c y t : ℚ} {f : ℤ} (h : badArgs fv c y t f) :
    ∃ m, price_bond fv c y t f = .error (.invalidArg m) := by
  unfold price_bond
  rcases h with h | h | h | h | h
  · exact ⟨_, if_pos (Or.inl h)⟩
  · exact ⟨_, if_pos (Or.inr h)⟩
  all_goals by_cases h1 : fv ≤ 0 ∨ t ≤ 0
  · exact ⟨_, if_pos h1⟩
  · exact ⟨_, by rw [if_neg h1, if_pos (Or.inl h)]⟩
  · exact ⟨_, if_pos h1⟩
  · exact ⟨_, by rw [if_neg h1, if_pos (Or.inr h)]⟩
  · exact ⟨_, if_pos h1⟩
  · by_cases h2 : c < 0 ∨ y < 0
    · exact ⟨_, by rw [if_neg h1, if_pos h2]⟩
    · exact ⟨_, by rw [if_neg h1, if_neg h2, if_pos h]⟩

theorem badArgs_yield_iff {fv c y t : ℚ} {f : ℤ} (h : ¬ badArgs fv c y t f)
    (y2 : ℚ) : badArgs fv c y2 t f ↔ y2 < 0 := by
  obtain ⟨h1, h2, h3, h4, h5⟩ := valid_fields h
  unfold badArgs
  constructor
  · rintro (hb | hb | hb | hb | hb)
    · exact absurd h1 (not_lt.mpr hb)
    · exact absurd h2 (not_lt.mpr hb)
    · exact absurd h3 (not_le.mpr hb)
    · exact hb
    · exact absurd h5 hb
  · exact fun hb => Or.inr (Or.inr (Or.inr (Or.inl hb)))

theorem calculate_duration_eq {fv c y t : ℚ} {f : ℤ} (h : ¬ badArgs fv c y t f) :
    calculate_duration fv c y t f =
      if base_price fv c y t f = 0 ∧ 1 ≤ n_periods t f then .error .zeroDivision
      else .ok (durationResult fv c y t f) := by
  unfold calculate_duration
  rw [price_bond_ok h]
  rfl

theorem calculate_convexity_eq {fv c y t : ℚ} {f : ℤ} (h : ¬ badArgs fv c y t f) :
    calculate_convexity fv c y t f =
      if base_price fv c y t f = 0 then .error .zeroDivision
      else .ok (convexityResult fv c y t f) := by
  unfold calculate_convexity
  rw [price_bond_ok h]
  rfl

theorem calculate_dv01_ok {fv c y t : ℚ} {f : ℤ} (h : ¬ badArgs fv c y t f) :
    calculate_dv01 fv c y t f = .ok (dv01Result fv c y t f) := by
  have h4 : (0:ℚ) ≤ y := (valid_fields h).2.2.2.1
  have h2 : ¬ badArgs fv c (y + 1/10000) t f := by
    rw [badArgs_yield_iff h]
    push_neg
    linarith
  unfold calculate_dv01
  rw [price_bond_ok h, price_bond_ok h2]

theorem bond_analytics_eq {fv c y t : ℚ} {f : ℤ} (h : ¬ badArgs fv c y t f) :
    bond_analytics fv c y t f =
      if base_price fv c y t f = 0 then .error .zeroDivision
      else .ok (analyticsResult fv c y t f) := by
  unfold bond_analytics
  rw [price_bond_ok h, calculate_duration_eq h, calculate_convexity_eq h]
  by_cases hB : base_price fv c y t f = 0
  · by_cases hn : 1 ≤ n_periods t f
    · simp only [if_pos (And.intro hB hn), if_pos hB]
    · simp only [if_neg (fun hc : _ ∧ _ => hn hc.2), if_pos hB]
  · simp only [if_neg (fun hc : _ ∧ _ => hB hc.1), if_neg hB, calculate_dv01_ok h]

theorem price_change_estimate_ok {fv c y t dy : ℚ} {f : ℤ} {ic : Bool}
    (h : ¬ badArgs fv c y t f) (hB : base_price fv c y t f ≠ 0)
    (hdy : 0 ≤ y + dy) :
    price_change_estimate fv c y t dy f ic = .ok (pceResult fv c y t dy f ic) := by
  have h2 : ¬ badArgs fv c (y + dy) t f := by
    rw [badArgs_yield_iff h]
    push_neg
    exact hdy
  unfold price_change_estimate
  rw [bond_analytics_eq h, if_neg hB, price_bond_ok h2]
  rfl

theorem price_change_estimate_shift_err {fv c y t dy : ℚ} {f : ℤ} {ic : Bool}
    (h : ¬ badArgs fv c y t f) (hB : base_price fv c y t f ≠ 0)
    (hdy : y + dy < 0) :
    price_change_estimate fv c y t dy f ic =
      .error (.invalidArg "Rates cannot be negative") := by
  obtain ⟨h1, h2, h3, h4, h5⟩ := valid_fields h
  unfold price_change_estimate
  rw [bond_analytics_eq h, if_neg hB]
  unfold price_bond
  rw [if_neg (by push_neg; exact ⟨h1, h2⟩), if_pos (Or.inr hdy)]

/-! ## Helper lemmas about the derived quantities -/

theorem n_periods_cast_le {t : ℚ} {f : ℤ} (ht : 0 < t) (hf : (0:ℚ) < (f : ℚ)) :
    ((n_periods t f : ℕ) : ℚ) ≤ t * (f : ℚ) := by
  unfold n_periods
  have hpos : (0:ℚ) ≤ t * (f : ℚ) := le_of_lt (mul_pos ht hf)
  have hnn : 0 ≤ ⌊t * (f : ℚ)⌋ := Int.floor_nonneg.mpr hpos
  calc ((⌊t * (f : ℚ)⌋.toNat : ℕ) : ℚ) = ((⌊t * (f : ℚ)⌋ : ℤ) : ℚ) := by
        exact_mod_cast congrArg (fun z : ℤ => (z : ℚ)) (Int.toNat_of_nonneg hnn)
    _ ≤ t * (f : ℚ) := Int.floor_le _

theorem n_periods_eq_zero {t : ℚ} {f : ℤ} (ht : 0 < t) (hf : (0:ℚ) < (f : ℚ))
    (hlt : t * (f : ℚ) < 1) : n_periods t f = 0 := by
  unfold n_periods
  have : ⌊t * (f : ℚ)⌋ = 0 :=
    Int.floor_eq_zero_iff.mpr ⟨le_of_lt (mul_pos ht hf), hlt⟩
  simp [this]

theorem one_le_base {py : ℚ} (hpy : 0 ≤ py) (k : ℕ) : (1:ℚ) ≤ (1 + py) ^ k := by
  calc (1:ℚ) = 1 ^ k := (one_pow k).symm
    _ ≤ (1 + py) ^ k := pow_le_pow_left₀ (by norm_num) (by linarith) k

theorem pv_cf_nonneg {fv coupon_pay py : ℚ} (hfv : 0 ≤ fv) (hcp : 0 ≤ coupon_pay)
    (hpy : 0 ≤ py) (n period : ℕ) : 0 ≤ pv_cf fv coupon_pay py n period := by
  unfold pv_cf cash_flow
  have hpow : (0:ℚ) < (1 + py) ^ period := by positivity
  apply div_nonneg _ (le_of_lt hpow)
  split_ifs <;> linarith

theorem coupon_payment_nonneg {fv c : ℚ} {f : ℤ} (hfv : 0 ≤ fv) (hc : 0 ≤ c)
    (hf : (0:ℚ) < (f : ℚ)) : 0 ≤ coupon_payment fv c f := by
  unfold coupon_payment
  positivity

theorem periodic_yield_nonneg {y : ℚ} {f : ℤ} (hy : 0 ≤ y)
    (hf : (0:ℚ) < (f : ℚ)) : 0 ≤ periodic_yield y f := by
  unfold periodic_yield
  positivity

theorem raw_price_n_zero {fv c y t : ℚ} {f : ℤ} (hn : n_periods t f = 0) :
    raw_price fv c y t f = fv := by
  simp only [raw_price, hn]
  split_ifs with h1 h2 <;> push_cast <;> simp

theorem raw_price_nonneg {fv c y t : ℚ} {f : ℤ} (hfv : 0 ≤ fv) (hc : 0 ≤ c)
    (hy : 0 ≤ y) (hf : (0:ℚ) < (f : ℚ)) : 0 ≤ raw_price fv c y t f := by
  have hcp := coupon_payment_nonneg hfv hc hf
  have hpy := periodic_yield_nonneg hy hf
  have hpow : ∀ k : ℕ, (0:ℚ) < (1 + periodic_yield y f) ^ k := fun k => by positivity
  have hnn : (0:ℚ) ≤ ((n_periods t f : ℕ) : ℚ) := by positivity
  simp only [raw_price]
  split_ifs with h1 h2
  · exact div_nonneg hfv (le_of_lt (hpow _))
  · have := mul_nonneg hcp hnn
    linarith
  · have hpy2 : 0 < periodic_yield y f := lt_of_le_of_ne hpy (Ne.symm h2)
    have hinv : (1 + periodic_yield y f) ^ (-(n_periods t f : ℤ)) ≤ 1 := by
      rw [zpow_neg, zpow_natCast]
      exact inv_le_one_of_one_le₀ (one_le_base hpy _)
    have h3 : 0 ≤ coupon_payment fv c f *
        (1 - (1 + periodic_yield y f) ^ (-(n_periods t f : ℤ))) /
          periodic_yield y f := by
      apply div_nonneg _ (le_of_lt hpy2)
      apply mul_nonneg hcp
      linarith
    have h4 : (0:ℚ) ≤ fv / (1 + periodic_yield y f) ^ n_periods t f :=
      div_nonneg hfv (le_of_lt (hpow _))
    linarith

theorem base_price_nonneg {fv c y t : ℚ} {f : ℤ} (hfv : 0 ≤ fv) (hc : 0 ≤ c)
    (hy : 0 ≤ y) (hf : (0:ℚ) < (f : ℚ)) : 0 ≤ base_price fv c y t f :=
  py_round_nonneg _ _ (raw_price_nonneg hfv hc hy hf)

/-! ## Claim theorems -/

/-- C2: for every valid input with `coupon_rate = 0`, `price_bond` returns
price equal to `face_value / (1 + periodic_yield) ^ n_periods` rounded to 2
decimals, where `periodic_yield = yield_to_maturity / coupon_frequency` and
`n_periods = floor(years_to_maturity * coupon_frequency)`. -/
theorem C2_zero_coupon_price (fv y t : ℚ) (f : ℤ) (h : ¬ badArgs fv 0 y t f) :
    ∃ r, price_bond fv 0 y t f = .ok r ∧
      r.price = py_round (fv / (1 + periodic_yield y f) ^ n_periods t f) 2 := by
  refine ⟨priceResult fv 0 y t f, price_bond_ok h, ?_⟩
  show base_price fv 0 y t f = _
  unfold base_price
  congr 1

/-- Witness for C2 at the spec's concrete scenario: `face_value = 1000`,
`coupon_rate = 0`, `yield_to_maturity = 0.04`, `years_to_maturity = 5`,
`coupon_frequency = 1` prices at `1000 / 1.04^5`, rounded to `821.93`. -/
theorem C2_zero_coupon_price_witness :
    ∃ r, price_bond 1000 0 (1/25) 5 1 = .ok r ∧ r.price = 82193/100 := by
  obtain ⟨r, h1, h2⟩ := C2_zero_coupon_price 1000 (1/25) 5 1 (by decide)
  exact ⟨r, h1, by rw [h2]; decide⟩

/-- C3: for every valid input, `calculate_dv01` prices the bond twice (at the
input yield and at the yield bumped by `0.0001`), returns the absolute
difference of the two Pricer prices as `dv01`, and
`(dv01 / face_value) * 100` as `dv01_per_100`, both rounded to 4 decimals. -/
theorem C3_dv01_finite_difference (fv c y t : ℚ) (f : ℤ)
    (h : ¬ badArgs fv c y t f) :
    ∃ p0 p1 r, price_bond fv c y t f = .ok p0 ∧
      price_bond fv c (y + 1/10000) t f = .ok p1 ∧
      calculate_dv01 fv c y t f = .ok r ∧
      r.dv01 = py_round |p0.price - p1.price| 4 ∧
      r.dv01_per_100 = py_round (|p0.price - p1.price| / fv * 100) 4 := by
  have h4 : (0:ℚ) ≤ y := (valid_fields h).2.2.2.1
  have h2 : ¬ badArgs fv c (y + 1/10000) t f := by
    rw [badArgs_yield_iff h]
    push_neg
    linarith
  exact ⟨_, _, _, price_bond_ok h, price_bond_ok h2, calculate_dv01_ok h, rfl, rfl⟩

/-- Witness for C3 at `face_value = 1000`, `coupon_rate = 0.05`,
`yield_to_maturity = 0.05`, `years_to_maturity = 1`, `coupon_frequency = 1`. -/
theorem C3_dv01_finite_difference_witness :
    ∃ p0 p1 r, price_bond 1000 (1/20) (1/20) 1 1 = .ok p0 ∧
      price_bond 1000 (1/20) (1/20 + 1/10000) 1 1 = .ok p1 ∧
      calculate_dv01 1000 (1/20) (1/20) 1 1 = .ok r ∧
      r.dv01 = py_round |p0.price - p1.price| 4 ∧
      r.dv01_per_100 = py_round (|p0.price - p1.price| / 1000 * 100) 4 :=
  C3_dv01_finite_difference 1000 (1/20) (1/20) 1 1 (by decide)

/-- C6: for every valid input, the `price` and `dirty_price` fields returned
by `price_bond` are equal. -/
theorem C6_price_eq_dirty (fv c y t : ℚ) (f : ℤ) (r : PriceBondResult)
    (h : price_bond fv c y t f = .ok r) : r.price = r.dirty_price := by
  by_cases hb : badArgs fv c y t f
  · obtain ⟨m, hm⟩ := price_bond_err hb
    rw [hm] at h
    cases h
  · rw [price_bond_ok hb] at h
    cases h
    rfl

/-- Witness for C6 at `face_value = 1000`, `coupon_rate = 0`,
`yield_to_maturity = 0`, `years_to_maturity = 1`, `coupon_frequency = 1`. -/
theorem C6_price_eq_dirty_witness :
    ({ price := 1000, dirty_price := 1000, discount_premium := 0,
       par_yield_diff := 0 } : PriceBondResult).price =
      ({ price := 1000, dirty_price := 1000, discount_premium := 0,
         par_yield_diff := 0 } : PriceBondResult).dirty_price :=
  C6_price_eq_dirty 1000 0 0 1 1 _ (by decide)

/-- Counterexample to C1: at a fully valid quote (`face_value = 1000`,
`coupon_rate = 0.05`, `yield_to_maturity = 0.05`, `years_to_maturity = 1`,
`coupon_frequency = 1`, none of the listed triggers), `price_change_estimate`
with `yield_change = -0.10` still raises the invalid-argument error, because
the exact repricing calls the Pricer at the negative shifted yield
`0.05 - 0.10`. -/
theorem C1_counterexample :
    ¬ badArgs 1000 (1/20) (1/20) 1 1 ∧
    price_change_estimate 1000 (1/20) (1/20) 1 (-(1/10)) 1 true =
      .error (.invalidArg "Rates cannot be negative") := by decide

/-- C1 (amended): the five quote operations raise the invalid-argument error
exactly on the listed triggers (the validation sits in the Pricer and is
inherited through the leading Pricer call); `price_change_estimate` raises it
on the listed triggers and additionally — after the analytics succeed — when
the shifted yield `yield_to_maturity + yield_change` is negative, via the
exact-repricing Pricer call. -/
theorem C1_amended_validation (fv c y t dy : ℚ) (f : ℤ) (ic : Bool) :
    (raisesInvalidArg (price_bond fv c y t f) ↔ badArgs fv c y t f) ∧
    (raisesInvalidArg (calculate_duration fv c y t f) ↔ badArgs fv c y t f) ∧
    (raisesInvalidArg (calculate_convexity fv c y t f) ↔ badArgs fv c y t f) ∧
    (raisesInvalidArg (calculate_dv01 fv c y t f) ↔ badArgs fv c y t f) ∧
    (raisesInvalidArg (bond_analytics fv c y t f) ↔ badArgs fv c y t f) ∧
    (raisesInvalidArg (price_change_estimate fv c y t dy f ic) ↔
      (badArgs fv c y t f ∨
        (¬ badArgs fv c y t f ∧ base_price fv c y t f ≠ 0 ∧ y + dy < 0))) := by
  by_cases hb : badArgs fv c y t f
  · obtain ⟨m, hm⟩ := price_bond_err hb
    have hdur : calculate_duration fv c y t f = .error (.invalidArg m) := by
      unfold calculate_duration
      rw [hm]
    have hconv : calculate_convexity fv c y t f = .error (.invalidArg m) := by
      unfold calculate_convexity
      rw [hm]
    have hdv : calculate_dv01 fv c y t f = .error (.invalidArg m) := by
      unfold calculate_dv01
      rw [hm]
    have hana : bond_analytics fv c y t f = .error (.invalidArg m) := by
      unfold bond_analytics
      rw [hm]
    have hpce : price_change_estimate fv c y t dy f ic = .error (.invalidArg m) := by
      unfold price_change_estimate
      rw [hana]
    refine ⟨?_, ?_, ?_, ?_, ?_, ?_⟩ <;>
      simp [raisesInvalidArg, hm, hdur, hconv, hdv, hana, hpce, hb]
  · have hpb := price_bond_ok hb
    refine ⟨?_, ?_, ?_, ?_, ?_, ?_⟩
    · simp [raisesInvalidArg, hpb, hb]
    · rw [calculate_duration_eq hb]
      by_cases hzd : base_price fv c y t f = 0 ∧ 1 ≤ n_periods t f
      · simp [raisesInvalidArg, if_pos hzd, hb]
      · simp [raisesInvalidArg, if_neg hzd, hb]
    · rw [calculate_convexity_eq hb]
      by_cases hzd : base_price fv c y t f = 0
      · simp [raisesInvalidArg, if_pos hzd, hb]
      · simp [raisesInvalidArg, if_neg hzd, hb]
    · simp [raisesInvalidArg, calculate_dv01_ok hb, hb]
    · rw [bond_analytics_eq hb]
      by_cases hzd : base_price fv c y t f = 0
      · simp [raisesInvalidArg, if_pos hzd, hb]
      · simp [raisesInvalidArg, if_neg hzd, hb]
    · by_cases hzd : base_price fv c y t f = 0
      · have : price_change_estimate fv c y t dy f ic = .error .zeroDivision := by
          unfold price_change_estimate
          rw [bond_analytics_eq hb, if_pos hzd]
        simp [raisesInvalidArg, this, hb, hzd]
      · by_cases hdy : y + dy < 0
        · simp [raisesInvalidArg, price_change_estimate_shift_err hb hzd hdy,
            hb, hzd, hdy]
        · simp [raisesInvalidArg,
            price_change_estimate_ok hb hzd (not_lt.mp hdy), hb, hzd, hdy]

/-- C4: for every valid input on which the estimate succeeds (nonzero base
price, nonnegative shifted yield), `price_change_estimate` computes
`duration_effect = -modified_duration * current_price * yield_change`,
`convexity_effect = 0.5 * convexity * current_price * yield_change^2` when the
flag is set and `0` otherwise, `estimated_new_price = current_price +
duration_effect + convexity_effect`, takes `actual_new_price` from the Pricer
at the shifted yield, and reports `estimation_error = estimated_new_price -
actual_new_price` (fields carried with the code's output rounding). -/
theorem C4_scenario_estimate (fv c y t dy : ℚ) (f : ℤ) (ic : Bool)
    (h : ¬ badArgs fv c y t f) (hB : base_price fv c y t f ≠ 0)
    (hdy : 0 ≤ y + dy) :
    ∃ d cx p1 r de ce,
      calculate_duration fv c y t f = .ok d ∧
      calculate_convexity fv c y t f = .ok cx ∧
      price_bond fv c (y + dy) t f = .ok p1 ∧
      price_change_estimate fv c y t dy f ic = .ok r ∧
      de = -d.modified_duration * base_price fv c y t f * dy ∧
      ce = (if ic then 1/2 * cx.convexity * base_price fv c y t f * dy ^ 2 else 0) ∧
      r.current_price = py_round (base_price fv c y t f) 2 ∧
      r.duration_effect = py_round de 2 ∧
      r.convexity_effect = py_round ce 4 ∧
      r.estimated_new_price = py_round (base_price fv c y t f + de + ce) 2 ∧
      r.actual_new_price = py_round p1.price 2 ∧
      r.estimation_error =
        py_round (base_price fv c y t f + de + ce - p1.price) 4 := by
  have h2 : ¬ badArgs fv c (y + dy) t f := by
    rw [badArgs_yield_iff h]
    push_neg
    exact hdy
  have hdur : calculate_duration fv c y t f = .ok (durationResult fv c y t f) := by
    rw [calculate_duration_eq h, if_neg (fun hc => hB hc.1)]
  have hconv : calculate_convexity fv c y t f = .ok (convexityResult fv c y t f) := by
    rw [calculate_convexity_eq h, if_neg hB]
  exact ⟨durationResult fv c y t f, convexityResult fv c y t f,
    priceResult fv c (y + dy) t f, pceResult fv c y t dy f ic,
    scenario_duration_effect fv c y t dy f,
    scenario_convexity_effect fv c y t dy f ic,
    hdur, hconv, price_bond_ok h2, price_change_estimate_ok h hB hdy,
    rfl, rfl, rfl, rfl, rfl, rfl, rfl, rfl⟩

/-- Witness for C4 at `face_value = 1000`, `coupon_rate = 0.05`,
`yield_to_maturity = 0.05`, `years_to_maturity = 1`, `yield_change = 0.01`,
`coupon_frequency = 1`, convexity included. -/
theorem C4_scenario_estimate_witness :
    ∃ d cx p1 r de ce,
      calculate_duration 1000 (1/20) (1/20) 1 1 = .ok d ∧
      calculate_convexity 1000 (1/20) (1/20) 1 1 = .ok cx ∧
      price_bond 1000 (1/20) (1/20 + 1/100) 1 1 = .ok p1 ∧
      price_change_estimate 1000 (1/20) (1/20) 1 (1/100) 1 true = .ok r ∧
      de = -d.modified_duration * base_price 1000 (1/20) (1/20) 1 1 * (1/100) ∧
      ce = (if true then 1/2 * cx.convexity * base_price 1000 (1/20) (1/20) 1 1 *
        (1/100) ^ 2 else 0) ∧
      r.current_price = py_round (base_price 1000 (1/20) (1/20) 1 1) 2 ∧
      r.duration_effect = py_round de 2 ∧
      r.convexity_effect = py_round ce 4 ∧
      r.estimated_new_price =
        py_round (base_price 1000 (1/20) (1/20) 1 1 + de + ce) 2 ∧
      r.actual_new_price = py_round p1.price 2 ∧
      r.estimation_error =
        py_round (base_price 1000 (1/20) (1/20) 1 1 + de + ce - p1.price) 4 :=
  C4_scenario_estimate 1000 (1/20) (1/20) 1 (1/100) 1 true (by decide)
    (by decide) (by norm_num)

/-- Counterexample to C9: at `face_value = 1000`, `coupon_rate = 0.05`,
`yield_to_maturity = 0.04`, `years_to_maturity = 1`, `yield_change = 0.01`,
`coupon_frequency = 1`, the reported `duration_effect` is `-9.71` — the raw
effect `-9.7074963` rounded to 2 decimal places — whereas rounding to 4
decimal places as the claim states would give `-9.7075`. -/
theorem C9_counterexample :
    (price_change_estimate 1000 (1/20) (1/25) 1 (1/100) 1 true).map
      (fun r => r.duration_effect) = .ok (-(971/100)) ∧
    py_round (scenario_duration_effect 1000 (1/20) (1/25) 1 (1/100) 1) 4 =
      -(3883/400) ∧
    ((-(971/100) : ℚ) ≠ -(3883/400)) := by decide

/-- C9 (amended): `price_change_estimate` rounds `current_price`,
`estimated_new_price`, `actual_new_price` and also `duration_effect` to 2
decimal places, and `convexity_effect` and `estimation_error` to 4 decimal
places (the `den = 1` conjuncts certify the digit counts of the reported
values). -/
theorem C9_amended_rounding (fv c y t dy : ℚ) (f : ℤ) (ic : Bool)
    (h : ¬ badArgs fv c y t f) (hB : base_price fv c y t f ≠ 0)
    (hdy : 0 ≤ y + dy) :
    ∃ r, price_change_estimate fv c y t dy f ic = .ok r ∧
      r.current_price = py_round (base_price fv c y t f) 2 ∧
      r.estimated_new_price =
        py_round (base_price fv c y t f + scenario_duration_effect fv c y t dy f +
          scenario_convexity_effect fv c y t dy f ic) 2 ∧
      r.actual_new_price = py_round (base_price fv c (y + dy) t f) 2 ∧
      r.duration_effect = py_round (scenario_duration_effect fv c y t dy f) 2 ∧
      r.convexity_effect = py_round (scenario_convexity_effect fv c y t dy f ic) 4 ∧
      r.estimation_error =
        py_round (base_price fv c y t f + scenario_duration_effect fv c y t dy f +
          scenario_convexity_effect fv c y t dy f ic -
            base_price fv c (y + dy) t f) 4 ∧
      (r.current_price * 10 ^ 2).den = 1 ∧
      (r.estimated_new_price * 10 ^ 2).den = 1 ∧
      (r.actual_new_price * 10 ^ 2).den = 1 ∧
      (r.duration_effect * 10 ^ 2).den = 1 ∧
      (r.convexity_effect * 10 ^ 4).den = 1 ∧
      (r.estimation_error * 10 ^ 4).den = 1 :=
  ⟨pceResult fv c y t dy f ic, price_change_estimate_ok h hB hdy,
    rfl, rfl, rfl, rfl, rfl, rfl,
    py_round_mul_den _ _, py_round_mul_den _ _, py_round_mul_den _ _,
    py_round_mul_den _ _, py_round_mul_den _ _, py_round_mul_den _ _⟩

/-- Witness for C9 (amended) at the same scenario as the C4 witness. -/
theorem C9_amended_rounding_witness :
    (0:ℚ) ≤ 1/20 + 1/100 ∧
    ∃ r, price_change_estimate 1000 (1/20) (1/20) 1 (1/100) 1 true = .ok r ∧
      r.duration_effect =
        py_round (scenario_duration_effect 1000 (1/20) (1/20) 1 (1/100) 1) 2 ∧
      (r.duration_effect * 10 ^ 2).den = 1 ∧
      (r.convexity_effect * 10 ^ 4).den = 1 := by
  have h := C9_amended_rounding 1000 (1/20) (1/20) 1 (1/100) 1 true (by decide)
    (by decide) (by norm_num)
  obtain ⟨r, h1, _, _, _, h5, _, _, _, _, _, h11, h12, _⟩ := h
  exact ⟨by norm_num, r, h1, h5, h11, h12⟩

theorem py_round_zero (d : ℕ) : py_round 0 d = 0 := by
  unfold py_round rnd_half_even
  norm_num

/-- Counterexample to C5: at the valid quote `face_value = 0.001`,
`coupon_rate = 0`, `yield_to_maturity = 0`, `years_to_maturity = 0.5`,
`coupon_frequency = 1` the Pricer's price rounds to `0`, yet
`calculate_duration` raises nothing: its loop runs zero times
(`n_periods = 0`), so the division by the zero base price is never executed
and zero durations are returned. -/
theorem C5_counterexample :
    base_price (1/1000) 0 0 (1/2) 1 = 0 ∧
    calculate_duration (1/1000) 0 0 (1/2) 1 =
      .ok { macaulay_duration := 0, modified_duration := 0,
            approx_price_change_1bp := 0 } := by decide

/-- C5 (amended): on valid inputs the division by the base price raises the
division-by-zero error exactly when it is executed: `calculate_convexity`
raises it if and only if the base price is `0` (its final division always
runs), while `calculate_duration` raises it if and only if the base price is
`0` and `n_periods ≥ 1` (its division sits inside the period loop); in
neither case is a non-finite value propagated. -/
theorem C5_amended_division_guard (fv c y t : ℚ) (f : ℤ)
    (h : ¬ badArgs fv c y t f) :
    (calculate_convexity fv c y t f = .error .zeroDivision ↔
      base_price fv c y t f = 0) ∧
    (calculate_duration fv c y t f = .error .zeroDivision ↔
      (base_price fv c y t f = 0 ∧ 1 ≤ n_periods t f)) := by
  constructor
  · rw [calculate_convexity_eq h]
    by_cases hz : base_price fv c y t f = 0
    · simp [if_pos hz, hz]
    · simp [if_neg hz, hz]
  · rw [calculate_duration_eq h]
    by_cases hz : base_price fv c y t f = 0 ∧ 1 ≤ n_periods t f
    · simp only [if_pos hz]
      simp [hz.1, hz.2]
    · simp only [if_neg hz]
      simp [hz]

/-- Witness for C5 (amended) at the degenerate quote of the counterexample:
there the convexity iff is settled on its error side and the duration iff on
its no-error side. -/
theorem C5_amended_division_guard_witness :
    ¬ badArgs (1/1000) 0 0 (1/2) 1 ∧
    ((calculate_convexity (1/1000) 0 0 (1/2) 1 = .error .zeroDivision ↔
      base_price (1/1000) 0 0 (1/2) 1 = 0) ∧
     (calculate_duration (1/1000) 0 0 (1/2) 1 = .error .zeroDivision ↔
      (base_price (1/1000) 0 0 (1/2) 1 = 0 ∧ 1 ≤ n_periods (1/2) 1))) :=
  ⟨by decide, C5_amended_division_guard (1/1000) 0 0 (1/2) 1 (by decide)⟩

/-- Counterexample to C10: at the valid quote `face_value = 0.001`,
`coupon_rate = 0`, `yield_to_maturity = 0`, `years_to_maturity = 0.5`,
`coupon_frequency = 1` (a maturity shorter than one coupon period,
`n_periods = 0`), the price returned by `price_bond` is `0`, not the face
value `0.001`: the undiscounted face value is still rounded to 2 decimals. -/
theorem C10_counterexample :
    n_periods (1/2) 1 = 0 ∧
    ¬ badArgs (1/1000) 0 0 (1/2) 1 ∧
    (price_bond (1/1000) 0 0 (1/2) 1).map (fun r => r.price) = .ok 0 ∧
    ((0:ℚ) ≠ 1/1000) := by decide

/-- C10 (amended): for every valid input with
`years_to_maturity * coupon_frequency < 1` (so `n_periods = 0`), all three
pricing branches leave the face value undiscounted and `price_bond` returns
`round(face_value, 2)`; `calculate_duration` returns zero Macaulay and
modified durations (its loop runs zero times), and `calculate_convexity`
returns zero convexity when the rounded price is nonzero and raises the
division-by-zero error when the rounded price is zero. -/
theorem C10_amended_short_maturity (fv c y t : ℚ) (f : ℤ)
    (h : ¬ badArgs fv c y t f) (hshort : t * (f : ℚ) < 1) :
    (∃ r, price_bond fv c y t f = .ok r ∧ r.price = py_round fv 2) ∧
    calculate_duration fv c y t f =
      .ok { macaulay_duration := 0, modified_duration := 0,
            approx_price_change_1bp := 0 } ∧
    (base_price fv c y t f ≠ 0 →
      calculate_convexity fv c y t f =
        .ok { convexity := 0, convexity_adjustment_1bp := 0 }) ∧
    (base_price fv c y t f = 0 →
      calculate_convexity fv c y t f = .error .zeroDivision) := by
  obtain ⟨h1, h2, h3, h4, h5⟩ := valid_fields h
  have hf := freq_cast_pos h5
  have hn : n_periods t f = 0 := n_periods_eq_zero h2 hf hshort
  have hpr : base_price fv c y t f = py_round fv 2 := by
    unfold base_price
    rw [raw_price_n_zero hn]
  refine ⟨⟨priceResult fv c y t f, price_bond_ok h, hpr⟩, ?_, ?_, ?_⟩
  · rw [calculate_duration_eq h, if_neg (by rw [hn]; rintro ⟨_, hc⟩; omega)]
    have hw : weighted_cf_time fv c y t f (base_price fv c y t f) = 0 := by
      simp [weighted_cf_time, hn]
    simp [durationResult, hw, py_round_zero]
  · intro hB
    rw [calculate_convexity_eq h, if_neg hB]
    have hs : convexity_sum fv c y t f = 0 := by
      simp [convexity_sum, hn]
    simp [convexityResult, convexity_raw, hs, py_round_zero]
  · intro hB
    rw [calculate_convexity_eq h, if_pos hB]

/-- Witness for C10 (amended) at `face_value = 10`, `coupon_rate = 0`,
`yield_to_maturity = 0`, `years_to_maturity = 0.5`, `coupon_frequency = 1`. -/
theorem C10_amended_short_maturity_witness :
    (1/2 : ℚ) * ((1 : ℤ) : ℚ) < 1 ∧
    ((∃ r, price_bond 10 0 0 (1/2) 1 = .ok r ∧ r.price = py_round 10 2) ∧
     calculate_duration 10 0 0 (1/2) 1 =
       .ok { macaulay_duration := 0, modified_duration := 0,
             approx_price_change_1bp := 0 } ∧
     (base_price 10 0 0 (1/2) 1 ≠ 0 →
       calculate_convexity 10 0 0 (1/2) 1 =
         .ok { convexity := 0, convexity_adjustment_1bp := 0 }) ∧
     (base_price 10 0 0 (1/2) 1 = 0 →
       calculate_convexity 10 0 0 (1/2) 1 = .error .zeroDivision)) :=
  ⟨by norm_num, C10_amended_short_maturity 10 0 0 (1/2) 1 (by decide) (by norm_num)⟩

/-- Counterexample to C7: the quote `face_value = 0.01`, `coupon_rate = 0.2`,
`yield_to_maturity = 0`, `years_to_maturity = 2`, `coupon_frequency = 1` pays
a coupon on every period and its base price equals its face value (priced at
par — the exact present value `0.014` rounds down to `0.01`), yet the
returned Macaulay duration is `2.6`, which exceeds the maturity of 2 years. -/
theorem C7_counterexample :
    base_price (1/100) (1/5) 0 2 1 = 1/100 ∧
    calculate_duration (1/100) (1/5) 0 2 1 =
      .ok { macaulay_duration := 13/5, modified_duration := 13/5,
            approx_price_change_1bp := 0 } ∧
    (2:ℚ) < 13/5 := by decide

/-- C7 (amended): for a standard coupon bond priced at or above par, the
Macaulay duration cannot exceed the maturity as long as price rounding does
not interfere: whenever the rounded base price is no smaller than the exact
present-value sum of the schedule, the unrounded weighted-time loop sum is at
most `years_to_maturity`, and the returned (4-decimal-rounded)
`macaulay_duration` is at most `years_to_maturity + 0.00005`. -/
theorem C7_amended_duration_bound (fv c y t : ℚ) (f : ℤ)
    (h : ¬ badArgs fv c y t f) (_hc : 0 < c)
    (hpar : fv ≤ base_price fv c y t f)
    (hexact : pv_total fv c y t f ≤ base_price fv c y t f) :
    weighted_cf_time fv c y t f (base_price fv c y t f) ≤ t ∧
    ∃ r, calculate_duration fv c y t f = .ok r ∧
      r.macaulay_duration ≤ t + 1/20000 := by
  obtain ⟨h1, h2, h3, h4, h5⟩ := valid_fields h
  have hf : (0:ℚ) < (f : ℚ) := freq_cast_pos h5
  have hB : 0 < base_price fv c y t f := lt_of_lt_of_le h1 hpar
  have hcp := coupon_payment_nonneg (le_of_lt h1) h3 hf
  have hpy := periodic_yield_nonneg h4 hf
  have hw : weighted_cf_time fv c y t f (base_price fv c y t f) ≤
      pv_total fv c y t f / base_price fv c y t f * t := by
    simp only [weighted_cf_time, pv_total]
    rw [Finset.sum_div, Finset.sum_mul]
    apply Finset.sum_le_sum
    intro p hp
    have hpv := pv_cf_nonneg (le_of_lt h1) hcp hpy (n_periods t f) (p + 1)
    have htime : ((p + 1 : ℕ) : ℚ) / (f : ℚ) ≤ t := by
      rw [div_le_iff₀ hf]
      have hple : ((p + 1 : ℕ) : ℚ) ≤ ((n_periods t f : ℕ) : ℚ) := by
        exact_mod_cast Nat.succ_le_of_lt (Finset.mem_range.mp hp)
      calc ((p + 1 : ℕ) : ℚ) ≤ ((n_periods t f : ℕ) : ℚ) := hple
        _ ≤ t * (f : ℚ) := n_periods_cast_le h2 hf
    exact mul_le_mul_of_nonneg_left htime (div_nonneg hpv (le_of_lt hB))
  have hwt : weighted_cf_time fv c y t f (base_price fv c y t f) ≤ t := by
    have hq : pv_total fv c y t f / base_price fv c y t f ≤ 1 := by
      rw [div_le_one hB]
      exact hexact
    calc weighted_cf_time fv c y t f (base_price fv c y t f) ≤
        pv_total fv c y t f / base_price fv c y t f * t := hw
      _ ≤ 1 * t := mul_le_mul_of_nonneg_right hq (le_of_lt h2)
      _ = t := one_mul t
  refine ⟨hwt, durationResult fv c y t f, ?_, ?_⟩
  · rw [calculate_duration_eq h, if_neg (fun hcon => absurd hcon.1 (ne_of_gt hB))]
  · show py_round (weighted_cf_time fv c y t f (base_price fv c y t f)) 4 ≤
      t + 1/20000
    have hle := py_round_le (weighted_cf_time fv c y t f (base_price fv c y t f)) 4
    have : (1:ℚ) / (2 * 10 ^ 4) = 1/20000 := by norm_num
    rw [this] at hle
    linarith

/-- Witness for C7 (amended) at `face_value = 1000`, `coupon_rate = 0.05`,
`yield_to_maturity = 0.05`, `years_to_maturity = 1`, `coupon_frequency = 1`
(an at-par bond whose exact present value equals the rounded price). -/
theorem C7_amended_duration_bound_witness :
    (1000:ℚ) ≤ base_price 1000 (1/20) (1/20) 1 1 ∧
    (weighted_cf_time 1000 (1/20) (1/20) 1 1 (base_price 1000 (1/20) (1/20) 1 1) ≤ 1 ∧
     ∃ r, calculate_duration 1000 (1/20) (1/20) 1 1 = .ok r ∧
       r.macaulay_duration ≤ 1 + 1/20000) :=
  ⟨by decide, C7_amended_duration_bound 1000 (1/20) (1/20) 1 1 (by decide)
    (by norm_num) (by decide) (by decide)⟩

/-- Counterexample to C8: the valid quote `face_value = 1000`,
`coupon_rate = 0.05`, `yield_to_maturity = 0.05`,
`years_to_maturity = 0.4`, `coupon_frequency = 1` (maturity shorter than one
period, so the convexity loop runs zero times) has non-negative coupon and
yield, yet `calculate_convexity` returns convexity `0`, not a value
strictly greater than `0`. -/
theorem C8_counterexample :
    ¬ badArgs 1000 (1/20) (1/20) (2/5) 1 ∧
    calculate_convexity 1000 (1/20) (1/20) (2/5) 1 =
      .ok { convexity := 0, convexity_adjustment_1bp := 0 } := by decide

/-- C8 (amended): for every valid input with at least one coupon period and a
nonzero rounded base price, the unrounded convexity is strictly positive, and
the returned 4-decimal-rounded `convexity` is nonnegative (it can round to
`0` when the unrounded value is below `0.00005`). -/
theorem C8_amended_convexity_pos (fv c y t : ℚ) (f : ℤ)
    (h : ¬ badArgs fv c y t f) (hn : 1 ≤ n_periods t f)
    (hB : base_price fv c y t f ≠ 0) :
    0 < convexity_raw fv c y t f (base_price fv c y t f) ∧
    ∃ r, calculate_convexity fv c y t f = .ok r ∧ 0 ≤ r.convexity := by
  obtain ⟨h1, h2, h3, h4, h5⟩ := valid_fields h
  have hf := freq_cast_pos h5
  have hBpos : 0 < base_price fv c y t f :=
    lt_of_le_of_ne (base_price_nonneg (le_of_lt h1) h3 h4 hf) (Ne.symm hB)
  have hcp := coupon_payment_nonneg (le_of_lt h1) h3 hf
  have hpy := periodic_yield_nonneg h4 hf
  have hsum : 0 < convexity_sum fv c y t f := by
    simp only [convexity_sum]
    apply Finset.sum_pos'
    · intro i _
      have hpv := pv_cf_nonneg (le_of_lt h1) hcp hpy (n_periods t f) (i + 1)
      positivity
    · refine ⟨n_periods t f - 1, Finset.mem_range.mpr (by omega), ?_⟩
      have hn1 : n_periods t f - 1 + 1 = n_periods t f := by omega
      have hn2 : n_periods t f - 1 + 2 = n_periods t f + 1 := by omega
      rw [hn1, hn2]
      have hcf : 0 < cash_flow fv (coupon_payment fv c f) (n_periods t f)
          (n_periods t f) := by
        unfold cash_flow
        rw [if_pos rfl]
        linarith
      have hpv : 0 < pv_cf fv (coupon_payment fv c f) (periodic_yield y f)
          (n_periods t f) (n_periods t f) := by
        unfold pv_cf
        exact div_pos hcf (by positivity)
      have hcast1 : (0:ℚ) < ((n_periods t f : ℕ) : ℚ) := by
        exact_mod_cast hn
      have hcast2 : (0:ℚ) < ((n_periods t f + 1 : ℕ) : ℚ) := by
        positivity
      exact mul_pos (mul_pos hcast1 hcast2) hpv
  have hpos : 0 < convexity_raw fv c y t f (base_price fv c y t f) := by
    unfold convexity_raw
    have hden1 : (0:ℚ) < base_price fv c y t f * (1 + periodic_yield y f) ^ 2 :=
      mul_pos hBpos (by positivity)
    exact div_pos (div_pos hsum hden1) (by positivity)
  refine ⟨hpos, convexityResult fv c y t f, ?_, ?_⟩
  · rw [calculate_convexity_eq h, if_neg hB]
  · show (0:ℚ) ≤ py_round (convexity_raw fv c y t f (base_price fv c y t f)) 4
    exact py_round_nonneg _ _ (le_of_lt hpos)

/-- Witness for C8 (amended) at `face_value = 1000`, `coupon_rate = 0.05`,
`yield_to_maturity = 0.05`, `years_to_maturity = 1`, `coupon_frequency = 1`. -/
theorem C8_amended_convexity_pos_witness :
    1 ≤ n_periods 1 1 ∧
    (0 < convexity_raw 1000 (1/20) (1/20) 1 1 (base_price 1000 (1/20) (1/20) 1 1) ∧
     ∃ r, calculate_convexity 1000 (1/20) (1/20) 1 1 = .ok r ∧ 0 ≤ r.convexity) :=
  ⟨by decide, C8_amended_convexity_pos 1000 (1/20) (1/20) 1 1 (by decide)
    (by decide) (by decide)⟩
